import Mathlib

/-!
Verification development for the webiny/di dependency-injection container
(src/src/types.ts and src/src/createDependency.ts).

The runtime engine is the Container class. Its six tables are keyed by the
abstraction's symbol token; of those, only the singleton-instance cache
(field named instances in the source, a Map from string keys to values) is
ever mutated during resolution, so the embedding splits a container into an
immutable record (Container below) plus a separate, explicitly threaded
cache component (Caches), one cache per container in the ancestor chain.

JavaScript values produced by resolution are modelled by the inductive
Value: constructed objects record the class identity, a fresh allocation
counter (object identity: two objects are the same JS object iff their
allocation ids are equal) and the constructor arguments; undefined is a
distinguished value; arrays (multiple-resolution results) are lists.

The container chain is a list whose head is the container on which the
method is invoked and whose tail is its ancestor chain (parent first).
Recursion is fuel-bounded; running out of fuel yields the distinguished
error outOfFuel, which corresponds to no behaviour of the source.
-/

namespace DI

/-- JavaScript runtime values relevant to the engine. An obj is the result
of a `new` expression: class identity, allocation id, constructor args in
order. raw models a pre-built (registered) truthy value; undef models the
JavaScript undefined value; list models an array. -/
inductive Value where
  | undef : Value
  | raw : Nat → Value
  | obj : Nat → Nat → List Value → Value
  | list : List Value → Value

/-- The source checks results against undefined (result !== undefined). -/
def Value.isUndef : Value → Bool
  | .undef => true
  | _ => false

/-- JavaScript truthiness as used by the singleton-cache guard
(if (existing)). Constructed objects and arrays are always truthy; raw
stands for the (truthy) values registered by users. -/
def Value.truthy (v : Value) : Bool := Bool.not v.isUndef

/-- An Abstraction (contract): token models the unique symbol allocated by
Symbol(name); label is the symbol's description (the name argument). Two
abstractions are the same contract iff their tokens are equal; labels may
collide. -/
structure Abstraction where
  token : Nat
  label : String

/-- Models Symbol.prototype.toString(): always the string Symbol(label),
identical for distinct symbols sharing a description. -/
def Abstraction.symStr (a : Abstraction) : String :=
  "Symbol(" ++ a.label ++ ")"

/-- Models Abstraction.toString(): token.description falling back to
token.toString() when the description is empty (falsy). -/
def Abstraction.toStr (a : Abstraction) : String :=
  if a.label = "" then a.symStr else a.label

/-- DependencyOptions with the source's defaults (absent fields are falsy). -/
structure DependencyOptions where
  multiple : Bool := false
  optional : Bool := false

/-- A Dependency is either a bare abstraction or an abstraction paired with
options (the source normalises with Array.isArray). -/
inductive Dependency where
  | bare : Abstraction → Dependency
  | withOptions : Abstraction → DependencyOptions → Dependency

/-- Normalisation performed at every use site:
Array.isArray(dep) ? dep : [dep, {}]. -/
def Dependency.norm : Dependency → Abstraction × DependencyOptions
  | .bare a => (a, {})
  | .withOptions a o => (a, o)

inductive LifetimeScope where
  | Transient : LifetimeScope
  | Singleton : LifetimeScope
deriving DecidableEq

/-- A provider record: implementation class name (used in the cache key),
class identity (used to tag constructed objects), dependency list, scope. -/
structure Registration where
  implName : String
  implId : Nat
  dependencies : List Dependency
  scope : LifetimeScope

/-- A decorator record: decorator class identity and its own dependencies. -/
structure DecoratorRegistration where
  decId : Nat
  dependencies : List Dependency

/-- A factory record: a zero-argument producer. It may allocate fresh
objects, so it is modelled as a function of the allocation counter
returning the produced value and the next counter. -/
abbrev Factory : Type := Nat → Value × Nat

/-- The immutable part of a Container's registration table. Maps keyed by
symbol are association lists keyed by the token. The mutable singleton
cache (source field instances) lives outside, in Caches. -/
structure Container where
  registrations : List (Nat × List Registration)
  decorators : List (Nat × List DecoratorRegistration)
  instanceRegistrations : List (Nat × List Value)
  factories : List (Nat × List Factory)
  composites : List (Nat × Registration)

def emptyContainer : Container :=
  { registrations := [], decorators := [], instanceRegistrations := [],
    factories := [], composites := [] }

/-- One container's singleton-instance cache: string key to cached value. -/
abbrev Cache : Type := List (String × Value)

/-- The caches of the whole chain, aligned with the container list. -/
abbrev Caches : Type := List Cache

inductive DIError where
  | outOfFuel : DIError
  | circular : String → DIError
  | noRegistration : String → DIError

def lookupAssoc {α : Type} (l : List (Nat × α)) (k : Nat) : Option α :=
  match l with
  | [] => none
  | (k2, v) :: rest => if k2 = k then some v else lookupAssoc rest k

/-- Map.get with the || [] default used throughout the source. -/
def lookupD {α : Type} (l : List (Nat × List α)) (k : Nat) : List α :=
  (lookupAssoc l k).getD []

def getStr (c : Cache) (k : String) : Option Value :=
  match c with
  | [] => none
  | (k2, v) :: rest => if k2 = k then some v else getStr rest k

def setStr (c : Cache) (k : String) (v : Value) : Cache :=
  match c with
  | [] => [(k, v)]
  | (k2, v2) :: rest => if k2 = k then (k, v) :: rest else (k2, v2) :: setStr rest k v

/-- The cache-hit test of resolveRegistration: a stored entry counts only
if truthy (const existing = this.instances.get(key); if (existing) ...). -/
def cacheHit (c : Cache) (k : String) : Option Value :=
  match getStr c k with
  | some v => if v.truthy then some v else none
  | none => none

/-- Write into the cache of the chain's head container
(this.instances.set(instanceKey, decoratedInstance)). -/
def updHead (cs : Caches) (k : String) (v : Value) : Caches :=
  match cs with
  | [] => [setStr [] k v]
  | c :: rest => setStr c k v :: rest

/-- The singleton cache key:
`${abstraction.token.toString()}::${registration.implementation.name}`. -/
def instanceKey (a : Abstraction) (implName : String) : String :=
  a.symStr ++ "::" ++ implName

mutual

/-- Container.resolveInternal (types.ts lines 210-238), for contract
(Abstraction) arguments. stack is the cycle-tracking map's key set; the
source's set/delete discipline with per-dependency copies is rendered by
passing extended copies downward. -/
def resolveInternal (fuel : Nat) (chain : List Container) (a : Abstraction)
    (stack : List Nat) (opts : DependencyOptions) (caches : Caches) (fresh : Nat) :
    Except DIError (Value × Caches × Nat) :=
  match fuel with
  | 0 => .error .outOfFuel
  | n + 1 =>
    if a.token ∈ stack ∧ opts.multiple = false then
      .error (.circular ("Circular dependency detected for " ++ a.toStr))
    else
      match tryResolveFromCurrentContainer n chain a stack opts caches fresh with
      | .error e => .error e
      | .ok r => afterLocalAttempt n chain a stack opts r
termination_by (fuel, chain.length, 0, 0)

/-- The tail of Container.resolveInternal (types.ts lines 224-237): return
a defined local result; otherwise delegate to the parent if there is one;
otherwise the optional/absence rule or the no-registration error. -/
def afterLocalAttempt (fuel : Nat) (chain : List Container) (a : Abstraction)
    (stack : List Nat) (opts : DependencyOptions) (r : Value × Caches × Nat) :
    Except DIError (Value × Caches × Nat) :=
  if r.1.isUndef then
    match chain with
    | _ :: p :: ps =>
      (match resolveInternal fuel (p :: ps) a stack opts r.2.1.tail r.2.2 with
       | .error e => .error e
       | .ok (v2, cs2, f2) => .ok (v2, r.2.1.headD [] :: cs2, f2))
    | _ =>
      if opts.optional then .ok (.undef, r.2.1, r.2.2)
      else .error (.noRegistration ("No registration found for " ++ a.toStr))
  else .ok (r.1, r.2.1, r.2.2)
termination_by (fuel, chain.length, 9, 0)

/-- Container.tryResolveFromCurrentContainer (types.ts lines 240-284).
Indexing a list known nonempty at its last position is rendered with
getLast?. -/
def tryResolveFromCurrentContainer (fuel : Nat) (chain : List Container) (a : Abstraction)
    (stack : List Nat) (opts : DependencyOptions) (caches : Caches) (fresh : Nat) :
    Except DIError (Value × Caches × Nat) :=
  let c := chain.headD emptyContainer
  let instanceRegs := lookupD c.instanceRegistrations a.token
  let registrations := lookupD c.registrations a.token
  if opts.multiple then
    match resolveMultiple fuel chain a stack caches fresh with
    | .error e => .error e
    | .ok (vs, cs, f) => .ok (.list vs, cs, f)
  else
    match lookupAssoc c.composites a.token with
    | some comp =>
      match resolveDepsLoop fuel chain comp.dependencies (a.token :: stack) caches fresh with
      | .error e => .error e
      | .ok (args, cs, f) => .ok (.obj comp.implId f args, cs, f + 1)
    | none =>
      match instanceRegs.getLast? with
      | some inst => applyDecorators fuel chain a inst stack caches fresh
      | none =>
        match registrations.getLast? with
        | some reg => resolveRegistration fuel chain a reg stack caches fresh
        | none =>
          match (lookupD c.factories a.token).getLast? with
          | some fac =>
            let r := fac fresh
            applyDecorators fuel chain a r.1 stack caches r.2
          | none => .ok (.undef, caches, fresh)
termination_by (fuel, chain.length, 8, 0)

/-- Container.resolveRegistration (types.ts lines 286-315): singleton cache
check, dependency resolution, construction, decoration, cache store. -/
def resolveRegistration (fuel : Nat) (chain : List Container) (a : Abstraction)
    (reg : Registration) (stack : List Nat) (caches : Caches) (fresh : Nat) :
    Except DIError (Value × Caches × Nat) :=
  let key := instanceKey a reg.implName
  let cached : Option Value :=
    if reg.scope = LifetimeScope.Singleton then cacheHit (caches.headD []) key else none
  match cached with
  | some v => .ok (v, caches, fresh)
  | none =>
    match resolveDepsLoop fuel chain reg.dependencies (a.token :: stack) caches fresh with
    | .error e => .error e
    | .ok (args, cs1, f1) =>
      match applyDecorators fuel chain a (.obj reg.implId f1 args) (a.token :: stack) cs1 (f1 + 1) with
      | .error e => .error e
      | .ok (v, cs2, f2) =>
        if reg.scope = LifetimeScope.Singleton then .ok (v, updHead cs2 key v, f2)
        else .ok (v, cs2, f2)
termination_by (fuel, chain.length, 5, 0)

/-- Container.resolveMultiple (types.ts lines 317-353): parent chain first,
then local instance records, provider records, factory records, in
registration order. -/
def resolveMultiple (fuel : Nat) (chain : List Container) (a : Abstraction)
    (stack : List Nat) (caches : Caches) (fresh : Nat) :
    Except DIError (List Value × Caches × Nat) :=
  match chain with
  | [] => .ok ([], caches, fresh)
  | c :: rest =>
    match resolveMultipleParent fuel rest a stack caches fresh with
    | .error e => .error e
    | .ok (vs0, cs0, f0) =>
      match multInstLoop fuel (c :: rest) a (lookupD c.instanceRegistrations a.token) stack cs0 f0 with
      | .error e => .error e
      | .ok (ivs, cs1, f1) =>
        match multRegLoop fuel (c :: rest) a (lookupD c.registrations a.token) stack cs1 f1 with
        | .error e => .error e
        | .ok (rvs, cs2, f2) =>
          match multFactLoop fuel (c :: rest) a (lookupD c.factories a.token) stack cs2 f2 with
          | .error e => .error e
          | .ok (fvs, cs3, f3) => .ok (vs0 ++ ivs ++ rvs ++ fvs, cs3, f3)
termination_by (fuel, chain.length, 7, 0)

/-- The parent step of resolveMultiple (if (this.parent)
results.push(...this.parent.resolveMultiple(...))): collect the parent
chain's full result first; with no parent the collection starts empty. -/
def resolveMultipleParent (fuel : Nat) (rest : List Container) (a : Abstraction)
    (stack : List Nat) (caches : Caches) (fresh : Nat) :
    Except DIError (List Value × Caches × Nat) :=
  match rest with
  | [] => .ok ([], caches, fresh)
  | p :: ps =>
    match resolveMultiple fuel (p :: ps) a stack caches.tail fresh with
    | .error e => .error e
    | .ok (vs, cs, f) => .ok (vs, caches.headD [] :: cs, f)
termination_by (fuel, rest.length + 1, 6, 0)

/-- The instance-record loop of resolveMultiple: each registered instance
is decorated and appended in registration order. -/
def multInstLoop (fuel : Nat) (chain : List Container) (a : Abstraction)
    (ls : List Value) (stack : List Nat) (caches : Caches) (fresh : Nat) :
    Except DIError (List Value × Caches × Nat) :=
  match ls with
  | [] => .ok ([], caches, fresh)
  | v :: rest =>
    match applyDecorators fuel chain a v stack caches fresh with
    | .error e => .error e
    | .ok (w, cs, f) =>
      match multInstLoop fuel chain a rest stack cs f with
      | .error e => .error e
      | .ok (ws, cs2, f2) => .ok (w :: ws, cs2, f2)
termination_by (fuel, chain.length, 6, ls.length)

/-- The provider-record loop of resolveMultiple: each registration is
resolved via resolveRegistration (scope, caching, decoration) in order. -/
def multRegLoop (fuel : Nat) (chain : List Container) (a : Abstraction)
    (regs : List Registration) (stack : List Nat) (caches : Caches) (fresh : Nat) :
    Except DIError (List Value × Caches × Nat) :=
  match regs with
  | [] => .ok ([], caches, fresh)
  | r :: rest =>
    match resolveRegistration fuel chain a r stack caches fresh with
    | .error e => .error e
    | .ok (v, cs, f) =>
      match multRegLoop fuel chain a rest stack cs f with
      | .error e => .error e
      | .ok (vs, cs2, f2) => .ok (v :: vs, cs2, f2)
termination_by (fuel, chain.length, 6, regs.length)

/-- The factory-record loop of resolveMultiple: each factory is invoked and
its result decorated, in order. -/
def multFactLoop (fuel : Nat) (chain : List Container) (a : Abstraction)
    (facs : List Factory) (stack : List Nat) (caches : Caches) (fresh : Nat) :
    Except DIError (List Value × Caches × Nat) :=
  match facs with
  | [] => .ok ([], caches, fresh)
  | fac :: rest =>
    let r := fac fresh
    match applyDecorators fuel chain a r.1 stack caches r.2 with
    | .error e => .error e
    | .ok (w, cs, f) =>
      match multFactLoop fuel chain a rest stack cs f with
      | .error e => .error e
      | .ok (ws, cs2, f2) => .ok (w :: ws, cs2, f2)
termination_by (fuel, chain.length, 6, facs.length)

/-- Container.applyDecorators (types.ts lines 355-373): fold this
container's decorator list (only the head container's list) over the base
instance. -/
def applyDecorators (fuel : Nat) (chain : List Container) (a : Abstraction)
    (inst : Value) (stack : List Nat) (caches : Caches) (fresh : Nat) :
    Except DIError (Value × Caches × Nat) :=
  applyDecoratorsLoop fuel chain a
    (lookupD (chain.headD emptyContainer).decorators a.token) inst stack caches fresh
termination_by (fuel, chain.length, 4, 0)

/-- The decorator fold: left-to-right, the running result is rewrapped by
each decorator in list order. -/
def applyDecoratorsLoop (fuel : Nat) (chain : List Container) (a : Abstraction)
    (ds : List DecoratorRegistration) (res : Value) (stack : List Nat)
    (caches : Caches) (fresh : Nat) :
    Except DIError (Value × Caches × Nat) :=
  match ds with
  | [] => .ok (res, caches, fresh)
  | d :: rest =>
    match decorateOne fuel chain a d res stack caches fresh with
    | .error e => .error e
    | .ok (w, cs, f) => applyDecoratorsLoop fuel chain a rest w stack cs f
termination_by (fuel, chain.length, 3, ds.length)

/-- One step of the decorator fold: resolve the decorator's own
dependencies, then new decoratorClass(...deps, result) - the running result
is the last constructor argument. -/
def decorateOne (fuel : Nat) (chain : List Container) (a : Abstraction)
    (d : DecoratorRegistration) (res : Value) (stack : List Nat)
    (caches : Caches) (fresh : Nat) :
    Except DIError (Value × Caches × Nat) :=
  match resolveDepsLoop fuel chain d.dependencies stack caches fresh with
  | .error e => .error e
  | .ok (vals, cs, f) => .ok (.obj d.decId f (vals ++ [res]), cs, f + 1)
termination_by (fuel, chain.length, 2, 0)

/-- Dependency-list resolution shared by providers, composites and
decorators: normalise each dependency and resolve it recursively, threading
the caches and the allocation counter left to right. -/
def resolveDepsLoop (fuel : Nat) (chain : List Container) (deps : List Dependency)
    (stack : List Nat) (caches : Caches) (fresh : Nat) :
    Except DIError (List Value × Caches × Nat) :=
  match deps with
  | [] => .ok ([], caches, fresh)
  | dep :: rest =>
    match resolveInternal fuel chain dep.norm.1 stack dep.norm.2 caches fresh with
    | .error e => .error e
    | .ok (v, cs, f) =>
      match resolveDepsLoop fuel chain rest stack cs f with
      | .error e => .error e
      | .ok (vs, cs2, f2) => .ok (v :: vs, cs2, f2)
termination_by (fuel, chain.length, 1, deps.length)

end

/-- Container.resolve: resolveInternal with a fresh cycle map and default
options. -/
def resolve (fuel : Nat) (chain : List Container) (a : Abstraction)
    (caches : Caches) (fresh : Nat) : Except DIError (Value × Caches × Nat) :=
  resolveInternal fuel chain a [] {} caches fresh

/-- Container.resolveAll: resolveMultiple with a fresh cycle map. -/
def resolveAll (fuel : Nat) (chain : List Container) (a : Abstraction)
    (caches : Caches) (fresh : Nat) : Except DIError (List Value × Caches × Nat) :=
  resolveMultiple fuel chain a [] caches fresh

/-- Modelled from the spec, section 4.3 step 3 (single resolution): the
strict local precedence order in the spec's own words - a composite record
wins; else the most-recently-registered instance record, decorated; else
the most-recently-registered provider record via the singleton/construction
procedure; else the most-recently-registered factory record, invoked and
decorated; else no local match (fall through, the undefined result). -/
def localPrecedenceSpec (fuel : Nat) (chain : List Container) (a : Abstraction)
    (stack : List Nat) (caches : Caches) (fresh : Nat) :
    Except DIError (Value × Caches × Nat) :=
  let c := chain.headD emptyContainer
  match lookupAssoc c.composites a.token with
  | some comp =>
    match resolveDepsLoop fuel chain comp.dependencies (a.token :: stack) caches fresh with
    | .error e => .error e
    | .ok (args, cs, f) => .ok (.obj comp.implId f args, cs, f + 1)
  | none =>
    match (lookupD c.instanceRegistrations a.token).getLast? with
    | some inst => applyDecorators fuel chain a inst stack caches fresh
    | none =>
      match (lookupD c.registrations a.token).getLast? with
      | some reg => resolveRegistration fuel chain a reg stack caches fresh
      | none =>
        match (lookupD c.factories a.token).getLast? with
        | some fac =>
          let r := fac fresh
          applyDecorators fuel chain a r.1 stack caches r.2
        | none => .ok (.undef, caches, fresh)

/-- Local absence of every record kind for a token: exactly the situation
in which tryResolveFromCurrentContainer reaches its final return undefined. -/
def NoRecords (c : Container) (tok : Nat) : Prop :=
  lookupAssoc c.composites tok = none ∧
  lookupD c.instanceRegistrations tok = [] ∧
  lookupD c.registrations tok = [] ∧
  lookupD c.factories tok = []

theorem truthy_not_isUndef {v : Value} (h : v.truthy = true) : v.isUndef = false := by
  cases v <;> simp_all [Value.truthy, Value.isUndef]

theorem obj_truthy (c i : Nat) (args : List Value) : (Value.obj c i args).truthy = true := rfl

@[simp] theorem getStr_setStr_same (c : Cache) (k : String) (v : Value) :
    getStr (setStr c k v) k = some v := by
  induction c with
  | nil => simp [setStr, getStr]
  | cons h t ih =>
    obtain ⟨k2, v2⟩ := h
    by_cases hk : k2 = k <;> simp [setStr, getStr, hk, ih]

theorem headD_updHead (cs : Caches) (k : String) (v : Value) :
    (updHead cs k v).headD [] = setStr (cs.headD []) k v := by
  cases cs <;> simp [updHead]

theorem cacheHit_some {c : Cache} {k : String} {v : Value}
    (h : cacheHit c k = some v) : v.truthy = true ∧ getStr c k = some v := by
  unfold cacheHit at h
  cases hg : getStr c k with
  | none => rw [hg] at h; simp at h
  | some w =>
    rw [hg] at h
    by_cases ht : w.truthy = true
    · simp only [ht, reduceIte] at h
      obtain rfl : w = v := by simpa using h
      exact ⟨ht, rfl⟩
    · simp [ht] at h

theorem cacheHit_setStr_truthy (c : Cache) (k : String) {v : Value}
    (ht : v.truthy = true) : cacheHit (setStr c k v) k = some v := by
  unfold cacheHit
  rw [getStr_setStr_same]
  simp [ht]

/-- Every successful decoration step yields a freshly constructed decorator
object whose last constructor argument is the running result. -/
theorem decorateOne_ok {fuel : Nat} {chain : List Container} {a : Abstraction}
    {d : DecoratorRegistration} {res : Value} {stack : List Nat}
    {caches : Caches} {fresh : Nat} {w : Value} {cs : Caches} {f : Nat}
    (h : decorateOne fuel chain a d res stack caches fresh = .ok (w, cs, f)) :
    ∃ vals i, w = Value.obj d.decId i (vals ++ [res]) := by
  rw [decorateOne] at h
  cases hd : resolveDepsLoop fuel chain d.dependencies stack caches fresh with
  | error e => rw [hd] at h; simp at h
  | ok r =>
    obtain ⟨vals, cs1, f1⟩ := r
    rw [hd] at h
    simp only [Except.ok.injEq, Prod.mk.injEq] at h
    exact ⟨vals, f1, h.1.symm⟩

/-- The decorator fold preserves truthiness of the running result. -/
theorem applyDecoratorsLoop_truthy {fuel : Nat} {chain : List Container} {a : Abstraction}
    {stack : List Nat} :
    ∀ {ds : List DecoratorRegistration} {res : Value} {caches : Caches} {fresh : Nat}
      {w : Value} {cs : Caches} {f : Nat},
    applyDecoratorsLoop fuel chain a ds res stack caches fresh = .ok (w, cs, f) →
    res.truthy = true → w.truthy = true := by
  intro ds
  induction ds with
  | nil =>
    intro res caches fresh w cs f h ht
    rw [applyDecoratorsLoop] at h
    simp only [Except.ok.injEq, Prod.mk.injEq] at h
    rw [← h.1]; exact ht
  | cons d rest ih =>
    intro res caches fresh w cs f h _
    rw [applyDecoratorsLoop] at h
    cases hd : decorateOne fuel chain a d res stack caches fresh with
    | error e => rw [hd] at h; simp at h
    | ok r =>
      obtain ⟨w1, cs1, f1⟩ := r
      rw [hd] at h
      obtain ⟨vals, i, rfl⟩ := decorateOne_ok hd
      exact ih h (obj_truthy _ _ _)

/-- A successful applyDecorators run on a truthy base yields a truthy value. -/
theorem applyDecorators_truthy {fuel : Nat} {chain : List Container} {a : Abstraction}
    {res : Value} {stack : List Nat} {caches : Caches} {fresh : Nat}
    {w : Value} {cs : Caches} {f : Nat}
    (h : applyDecorators fuel chain a res stack caches fresh = .ok (w, cs, f))
    (ht : res.truthy = true) : w.truthy = true := by
  rw [applyDecorators] at h
  exact applyDecoratorsLoop_truthy h ht

/-- A container with no record of any kind for the token yields the
undefined result without touching the caches or the allocation counter. -/
theorem tryResolve_noRecords {fuel : Nat} {c : Container} {rest : List Container}
    {a : Abstraction} {stack : List Nat} {opts : DependencyOptions}
    {caches : Caches} {fresh : Nat}
    (hn : NoRecords c a.token) (hm : opts.multiple = false) :
    tryResolveFromCurrentContainer fuel (c :: rest) a stack opts caches fresh =
      .ok (.undef, caches, fresh) := by
  obtain ⟨h1, h2, h3, h4⟩ := hn
  rw [tryResolveFromCurrentContainer]
  simp [hm, h1, h2, h3, h4]

/-- A defined (non-undefined) local result is returned as is. -/
theorem afterLocalAttempt_defined {fuel : Nat} {chain : List Container} {a : Abstraction}
    {stack : List Nat} {opts : DependencyOptions} {v : Value} {cs : Caches} {f : Nat}
    (ht : v.isUndef = false) :
    afterLocalAttempt fuel chain a stack opts (v, cs, f) = .ok (v, cs, f) := by
  rw [afterLocalAttempt.eq_def]
  simp [ht]

/-- With no matching record in the current container, single resolution
delegates to the parent container (the remainder of the chain). -/
theorem resolveInternal_fallThrough {n : Nat} {c p : Container} {ps : List Container}
    {a : Abstraction} {stack : List Nat} {opts : DependencyOptions}
    {caches : Caches} {fresh : Nat}
    (hn : NoRecords c a.token) (hm : opts.multiple = false) (hs : a.token ∉ stack) :
    resolveInternal (n + 1) (c :: p :: ps) a stack opts caches fresh =
      (match resolveInternal n (p :: ps) a stack opts caches.tail fresh with
       | .error e => .error e
       | .ok (v2, cs2, f2) => .ok (v2, caches.headD [] :: cs2, f2)) := by
  rw [resolveInternal]
  rw [if_neg (by simp [hs] : ¬(a.token ∈ stack ∧ opts.multiple = false))]
  rw [tryResolve_noRecords hn hm]
  show afterLocalAttempt n (c :: p :: ps) a stack opts (.undef, caches, fresh) = _
  rw [afterLocalAttempt.eq_def]
  simp [Value.isUndef]

/-- With no matching record and no parent, single resolution returns the
absence value when optional and otherwise the no-registration error. -/
theorem resolveInternal_rootMiss {n : Nat} {c : Container} {a : Abstraction}
    {stack : List Nat} {opts : DependencyOptions} {caches : Caches} {fresh : Nat}
    (hn : NoRecords c a.token) (hm : opts.multiple = false) (hs : a.token ∉ stack) :
    resolveInternal (n + 1) [c] a stack opts caches fresh =
      (if opts.optional then .ok (.undef, caches, fresh)
       else .error (.noRegistration ("No registration found for " ++ a.toStr))) := by
  rw [resolveInternal]
  rw [if_neg (by simp [hs] : ¬(a.token ∈ stack ∧ opts.multiple = false))]
  rw [tryResolve_noRecords hn hm]
  show afterLocalAttempt n [c] a stack opts (.undef, caches, fresh) = _
  rw [afterLocalAttempt.eq_def]
  simp [Value.isUndef]

/-- When no composite and no instance record is present and at least one
provider record is, local resolution is resolveRegistration on the
most-recently-registered provider. -/
theorem tryResolve_provider {fuel : Nat} {c : Container} {rest : List Container}
    {a : Abstraction} {stack : List Nat} {opts : DependencyOptions}
    {caches : Caches} {fresh : Nat} {r : Registration}
    (hcomp : lookupAssoc c.composites a.token = none)
    (hinst : lookupD c.instanceRegistrations a.token = [])
    (hreg : (lookupD c.registrations a.token).getLast? = some r)
    (hm : opts.multiple = false) :
    tryResolveFromCurrentContainer fuel (c :: rest) a stack opts caches fresh =
      resolveRegistration fuel (c :: rest) a r stack caches fresh := by
  rw [tryResolveFromCurrentContainer]
  simp [hm, hcomp, hinst, hreg]

/-- A singleton registration whose cache entry is already present returns
the cached value and changes nothing. -/
theorem resolveRegistration_cacheHit {fuel : Nat} {chain : List Container}
    {a : Abstraction} {r : Registration} {stack : List Nat} {caches : Caches}
    {fresh : Nat} {v : Value}
    (hs : r.scope = LifetimeScope.Singleton)
    (hh : cacheHit (caches.headD []) (instanceKey a r.implName) = some v) :
    resolveRegistration fuel chain a r stack caches fresh = .ok (v, caches, fresh) := by
  rw [resolveRegistration, hs]
  simp only [reduceIte, hh]

/-- Key invariant behind singleton identity: a successful singleton
resolveRegistration leaves (in the head container's cache, under the
contract-label/class-name key) a truthy entry equal to the returned value. -/
theorem resolveRegistration_singleton_ok {fuel : Nat} {chain : List Container}
    {a : Abstraction} {reg : Registration} {stack : List Nat} {caches : Caches}
    {fresh : Nat} {v : Value} {cs : Caches} {f : Nat}
    (hs : reg.scope = LifetimeScope.Singleton)
    (h : resolveRegistration fuel chain a reg stack caches fresh = .ok (v, cs, f)) :
    v.truthy = true ∧ cacheHit (cs.headD []) (instanceKey a reg.implName) = some v := by
  rw [resolveRegistration, hs] at h
  simp only [reduceIte] at h
  split at h
  · rename_i w hw
    simp only [Except.ok.injEq, Prod.mk.injEq] at h
    obtain ⟨rfl, rfl, rfl⟩ := h
    exact ⟨(cacheHit_some hw).1, hw⟩
  · rename_i hw
    split at h
    · simp at h
    · rename_i args cs1 f1 hdep
      split at h
      · simp at h
      · rename_i v2 cs2 f2 ha
        simp only [Except.ok.injEq, Prod.mk.injEq] at h
        obtain ⟨hv, hcs, hf⟩ := h
        have ht : v2.truthy = true := applyDecorators_truthy ha (obj_truthy _ _ _)
        constructor
        · rw [← hv]; exact ht
        · rw [← hcs, ← hv, headD_updHead]
          exact cacheHit_setStr_truthy _ _ ht

/-- Analysis of a successful single resolution whose winning local record
is a singleton provider: the returned value is truthy and sits in the head
container's cache under the label/class-name key of that provider. -/
theorem resolveInternal_singletonProvider_cache {fuel : Nat} {c : Container}
    {rest : List Container} {a : Abstraction} {r : Registration}
    {caches : Caches} {fresh : Nat} {v : Value} {cs2 : Caches} {f2 : Nat}
    (hcomp : lookupAssoc c.composites a.token = none)
    (hinst : lookupD c.instanceRegistrations a.token = [])
    (hreg : (lookupD c.registrations a.token).getLast? = some r)
    (hscope : r.scope = LifetimeScope.Singleton)
    (h1 : resolveInternal fuel (c :: rest) a [] {} caches fresh = .ok (v, cs2, f2)) :
    v.truthy = true ∧ cacheHit (cs2.headD []) (instanceKey a r.implName) = some v := by
  cases fuel with
  | zero => rw [resolveInternal] at h1; exact absurd h1 (by simp)
  | succ n =>
    rw [resolveInternal] at h1
    rw [if_neg (by simp : ¬(a.token ∈ ([] : List Nat) ∧ ({} : DependencyOptions).multiple = false))] at h1
    rw [tryResolve_provider hcomp hinst hreg rfl] at h1
    split at h1
    · simp at h1
    · rename_i rr hrr
      obtain ⟨v0, cs0, f0⟩ := rr
      have hsok := resolveRegistration_singleton_ok hscope hrr
      rw [afterLocalAttempt_defined (truthy_not_isUndef hsok.1)] at h1
      simp only [Except.ok.injEq, Prod.mk.injEq] at h1
      obtain ⟨hv, hcs, hf⟩ := h1
      constructor
      · rw [← hv]; exact hsok.1
      · rw [← hcs, ← hv]; exact hsok.2

/-- Once the cache entry is present (the container tables being immutable
during resolution), a single resolve of the singleton contract is a pure
cache hit: same value, no state change, any nonzero fuel. -/
theorem resolveInternal_cachedHit {k : Nat} {c : Container} {rest : List Container}
    {a : Abstraction} {r : Registration} {caches : Caches} {fresh : Nat} {v : Value}
    (hcomp : lookupAssoc c.composites a.token = none)
    (hinst : lookupD c.instanceRegistrations a.token = [])
    (hreg : (lookupD c.registrations a.token).getLast? = some r)
    (hscope : r.scope = LifetimeScope.Singleton)
    (hh : cacheHit (caches.headD []) (instanceKey a r.implName) = some v) :
    resolveInternal (k + 1) (c :: rest) a [] {} caches fresh = .ok (v, caches, fresh) := by
  rw [resolveInternal]
  rw [if_neg (by simp : ¬(a.token ∈ ([] : List Nat) ∧ ({} : DependencyOptions).multiple = false))]
  rw [tryResolve_provider hcomp hinst hreg rfl]
  rw [resolveRegistration_cacheHit hscope hh]
  show afterLocalAttempt k (c :: rest) a [] {} (v, caches, fresh) = _
  exact afterLocalAttempt_defined (truthy_not_isUndef (cacheHit_some hh).1)

/-- Resolution from a descendant whose extra (prefix) containers hold no
record for the token falls through them, returning the base chain's
cache-stable result and leaving the prefix caches untouched. -/
theorem resolveInternal_descendPrefix {a : Abstraction} {v : Value}
    {base : List Container} {bcs : Caches} {fresh : Nat}
    (hbase : base ≠ [])
    (hres : ∀ m : Nat, resolveInternal (m + 1) base a [] {} bcs fresh = .ok (v, bcs, fresh)) :
    ∀ (ds : List Container) (dcs : List Cache), dcs.length = ds.length →
    (∀ d ∈ ds, NoRecords d a.token) →
    ∀ k : Nat, resolveInternal (ds.length + (k + 1)) (ds ++ base) a [] {} (dcs ++ bcs) fresh
      = .ok (v, dcs ++ bcs, fresh) := by
  intro ds
  induction ds with
  | nil =>
    intro dcs hlen _ k
    obtain rfl : dcs = [] := List.length_eq_zero.mp hlen
    simpa using hres k
  | cons d ds ih =>
    intro dcs hlen hno k
    cases dcs with
    | nil => simp at hlen
    | cons dc dcs =>
      have hlen2 : dcs.length = ds.length := by simpa using hlen
      have hfuel : (d :: ds).length + (k + 1) = (ds.length + (k + 1)) + 1 := by
        simp only [List.length_cons]; omega
      rw [hfuel]
      cases hb : ds ++ base with
      | nil => exact absurd (List.append_eq_nil.mp hb).2 hbase
      | cons p ps =>
        simp only [List.cons_append]
        rw [hb]
        rw [resolveInternal_fallThrough (hno d (by simp)) rfl (by simp)]
        simp only [List.tail_cons, List.headD_cons]
        rw [← hb]
        rw [ih dcs hlen2 (fun d2 hd2 => hno d2 (List.mem_cons_of_mem _ hd2)) k]

/-- C1: for a container C whose winning local record for contract X is a
Singleton-scoped provider (no composite, no instance record, the
most-recently-registered provider is Singleton), a successful resolve of X
on C makes every further resolve of X on C return the identical instance
with no further state change; and any descendant chain reaching C through
containers with no registration of X of their own resolves X to that same
identical instance, because the cache entry lives with C, the container
owning the winning provider record. -/
theorem c1_singleton_scope_identity
    {c : Container} {rest : List Container} {a : Abstraction} {r : Registration}
    {caches : Caches} {fresh fuel : Nat} {v : Value} {cs2 : Caches} {f2 : Nat}
    (hcomp : lookupAssoc c.composites a.token = none)
    (hinst : lookupD c.instanceRegistrations a.token = [])
    (hreg : (lookupD c.registrations a.token).getLast? = some r)
    (hscope : r.scope = LifetimeScope.Singleton)
    (h1 : resolve fuel (c :: rest) a caches fresh = .ok (v, cs2, f2)) :
    (∀ k : Nat, resolve (k + 1) (c :: rest) a cs2 f2 = .ok (v, cs2, f2)) ∧
    (∀ (ds : List Container) (dcs : List Cache), dcs.length = ds.length →
      (∀ d ∈ ds, NoRecords d a.token) →
      ∀ k : Nat, resolve (ds.length + (k + 1)) (ds ++ c :: rest) a (dcs ++ cs2) f2
        = .ok (v, dcs ++ cs2, f2)) := by
  rw [resolve] at h1
  have hc := resolveInternal_singletonProvider_cache hcomp hinst hreg hscope h1
  have hsecond : ∀ k : Nat, resolveInternal (k + 1) (c :: rest) a [] {} cs2 f2 = .ok (v, cs2, f2) :=
    fun k => resolveInternal_cachedHit hcomp hinst hreg hscope hc.2
  constructor
  · intro k; rw [resolve]; exact hsecond k
  · intro ds dcs hlen hno k
    rw [resolve]
    exact resolveInternal_descendPrefix (by simp) hsecond ds dcs hlen hno k

def c1A : Abstraction := { token := 5, label := "Logger" }

def c1Reg : Registration :=
  { implName := "ConsoleLogger", implId := 10, dependencies := [], scope := .Singleton }

def c1C : Container :=
  { registrations := [(5, [c1Reg])], decorators := [], instanceRegistrations := [],
    factories := [], composites := [] }

/-- Witness for C1 at a concrete singleton registration: the repeated
resolve on C and the resolve from an empty child container both return the
instance cached by the first resolve. -/
theorem c1_singleton_scope_identity_witness :
    resolve 1 [c1C] c1A [[("Symbol(Logger)::ConsoleLogger", Value.obj 10 0 [])]] 1
      = .ok (.obj 10 0 [], [[("Symbol(Logger)::ConsoleLogger", Value.obj 10 0 [])]], 1) ∧
    resolve 2 [emptyContainer, c1C] c1A
        ([[]] ++ [[("Symbol(Logger)::ConsoleLogger", Value.obj 10 0 [])]]) 1
      = .ok (.obj 10 0 [], [[], [("Symbol(Logger)::ConsoleLogger", Value.obj 10 0 [])]], 1) := by
  have h1 : resolve 2 [c1C] c1A [[]] 0
      = .ok (.obj 10 0 [], [[("Symbol(Logger)::ConsoleLogger", Value.obj 10 0 [])]], 1) := by
    simp [resolve, resolveInternal, afterLocalAttempt, tryResolveFromCurrentContainer,
      resolveRegistration, resolveDepsLoop, applyDecorators, applyDecoratorsLoop, decorateOne,
      lookupD, lookupAssoc, cacheHit, getStr, setStr, updHead, instanceKey,
      Abstraction.symStr, Value.isUndef, Value.truthy, c1C, c1A, c1Reg, emptyContainer]
  have main := c1_singleton_scope_identity (by rfl) (by rfl) (by rfl) (by rfl) h1
  refine ⟨main.1 0, ?_⟩
  have h2 := main.2 [emptyContainer] [[]] rfl ?_ 0
  · exact h2
  · intro d hd
    simp only [List.mem_singleton] at hd
    subst hd
    exact ⟨rfl, rfl, rfl, rfl⟩

def aW : Abstraction := { token := 3, label := "Svc" }

/-- C7: a single (non-multiple) request whose contract identity is already
on the cycle-tracking path fails immediately with the circular-dependency
error naming the contract - before any construction, since the error is
raised ahead of the local-resolution attempt; a request with multiple=true
is exempt from the check and goes straight to multiple-collection. -/
theorem c7_cycle_check {n : Nat} {chain : List Container} {a : Abstraction}
    {stack : List Nat} {opts : DependencyOptions} {caches : Caches} {fresh : Nat} :
    (a.token ∈ stack → opts.multiple = false →
      resolveInternal (n + 1) chain a stack opts caches fresh
        = .error (.circular ("Circular dependency detected for " ++ a.toStr))) ∧
    (opts.multiple = true →
      resolveInternal (n + 1) chain a stack opts caches fresh
        = (match resolveMultiple n chain a stack caches fresh with
           | .error e => .error e
           | .ok (vs, cs, f) => .ok (.list vs, cs, f))) := by
  constructor
  · intro hin hm
    rw [resolveInternal]
    rw [if_pos ⟨hin, hm⟩]
  · intro hm
    rw [resolveInternal]
    rw [if_neg (by simp [hm])]
    rw [tryResolveFromCurrentContainer]
    simp only [hm, if_true]
    cases hmm : resolveMultiple n chain a stack caches fresh with
    | error e => rfl
    | ok r =>
      obtain ⟨vs, cs, f⟩ := r
      show afterLocalAttempt n chain a stack opts (.list vs, cs, f) = _
      exact afterLocalAttempt_defined rfl

/-- Witness for C7: a request for a contract already on the path fails with
the circular error, while the same request with multiple=true collects. -/
theorem c7_cycle_check_witness :
    resolveInternal 1 [emptyContainer] aW [3] {} [[]] 0
      = .error (.circular "Circular dependency detected for Svc") ∧
    resolveInternal 1 [emptyContainer] aW [3] { multiple := true } [[]] 0
      = .ok (.list [], [[]], 0) := by
  constructor
  · rw [(c7_cycle_check).1 (by simp [aW]) rfl]
    simp [aW, Abstraction.toStr]
  · rw [(c7_cycle_check).2 rfl]
    have h2 : resolveMultiple 0 [emptyContainer] aW [3] [[]] 0 = .ok ([], [[]], 0) := by
      rw [resolveMultiple]
      simp [resolveMultipleParent, multInstLoop, multRegLoop, multFactLoop, lookupD,
        lookupAssoc, emptyContainer]
    rw [h2]

/-- C8: with no matching registration for the contract anywhere in the
ancestor chain and a single (non-multiple) request, an optional request
returns the absence value and a non-optional one fails with the
no-registration error naming the contract. -/
theorem c8_unsatisfied_single {a : Abstraction} {opts : DependencyOptions}
    {stack : List Nat} {fresh : Nat}
    (hm : opts.multiple = false) (hs : a.token ∉ stack) :
    ∀ (chain : List Container), chain ≠ [] → ∀ (caches : Caches),
    caches.length = chain.length →
    (∀ d ∈ chain, NoRecords d a.token) →
    ∀ k : Nat, resolveInternal (chain.length + k) chain a stack opts caches fresh
      = (if opts.optional then .ok (.undef, caches, fresh)
         else .error (.noRegistration ("No registration found for " ++ a.toStr))) := by
  intro chain
  induction chain with
  | nil => intro h; exact absurd rfl h
  | cons c rest ih =>
    intro _ caches hlen hno k
    cases rest with
    | nil =>
      have hf : ([c] : List Container).length + k = k + 1 := by
        simp only [List.length_cons, List.length_nil]; omega
      rw [hf]
      rw [resolveInternal_rootMiss (hno c (by simp)) hm hs]
    | cons p ps =>
      have hf : (c :: p :: ps).length + k = ((p :: ps).length + k) + 1 := by
        simp only [List.length_cons]; omega
      rw [hf]
      cases caches with
      | nil => simp at hlen
      | cons cc ctail =>
        have hlen2 : ctail.length = (p :: ps).length := by simpa using hlen
        rw [resolveInternal_fallThrough (hno c (by simp)) hm hs]
        simp only [List.tail_cons, List.headD_cons]
        rw [ih (by simp) ctail hlen2 (fun d hd => hno d (List.mem_cons_of_mem _ hd)) k]
        by_cases ho : opts.optional = true
        · simp [ho]
        · simp [ho]

/-- Witness for C8 on a one-container chain with no registrations: the
optional request yields the absence value, the plain one the error. -/
theorem c8_unsatisfied_single_witness :
    resolveInternal 1 [emptyContainer] aW [] { optional := true } [[]] 0
      = .ok (.undef, [[]], 0) ∧
    resolveInternal 1 [emptyContainer] aW [] {} [[]] 0
      = .error (.noRegistration "No registration found for Svc") := by
  have hno : ∀ d ∈ ([emptyContainer] : List Container), NoRecords d aW.token := by
    intro d hd
    simp only [List.mem_singleton] at hd
    subst hd
    exact ⟨rfl, rfl, rfl, rfl⟩
  constructor
  · have h := @c8_unsatisfied_single aW { optional := true } [] 0 rfl (by simp)
      [emptyContainer] (by simp) [[]] rfl hno 0
    simpa using h
  · have h := @c8_unsatisfied_single aW {} [] 0 rfl (by simp)
      [emptyContainer] (by simp) [[]] rfl hno 0
    simpa using h

/-- Multiple-collection over a chain with no instance, provider or factory
record for the token returns the empty list and leaves the state alone
(composite records are never consulted by resolveMultiple). -/
theorem resolveMultiple_empty {a : Abstraction} {fresh : Nat} :
    ∀ (chain : List Container) (caches : Caches), caches.length = chain.length →
    (∀ d ∈ chain, lookupD d.instanceRegistrations a.token = [] ∧
      lookupD d.registrations a.token = [] ∧ lookupD d.factories a.token = []) →
    ∀ (stack : List Nat) (k : Nat),
      resolveMultiple k chain a stack caches fresh = .ok ([], caches, fresh) := by
  intro chain
  induction chain with
  | nil => intro caches _ _ stack k; rw [resolveMultiple]
  | cons c rest ih =>
    intro caches hlen hno stack k
    obtain ⟨h1, h2, h3⟩ := hno c (by simp)
    cases rest with
    | nil =>
      rw [resolveMultiple]
      simp [h1, h2, h3, resolveMultipleParent, multInstLoop, multRegLoop, multFactLoop]
    | cons p ps =>
      cases caches with
      | nil => simp at hlen
      | cons cc ctail =>
        have hlen2 : ctail.length = (p :: ps).length := by simpa using hlen
        rw [resolveMultiple]
        rw [resolveMultipleParent]
        simp [h1, h2, h3,
          ih ctail hlen2 (fun d hd => hno d (List.mem_cons_of_mem _ hd)) stack k,
          multInstLoop, multRegLoop, multFactLoop]

/-- C9: with zero provider, instance and factory registrations for the
contract in the whole chain, resolveAll returns the empty list without
raising, and a dependency requested with multiple=true resolves to the
empty list even when optional is false; absence is an error only for
single resolution. -/
theorem c9_empty_collection {a : Abstraction} {fresh : Nat}
    {chain : List Container} {caches : Caches}
    (hlen : caches.length = chain.length)
    (hno : ∀ d ∈ chain, lookupD d.instanceRegistrations a.token = [] ∧
      lookupD d.registrations a.token = [] ∧ lookupD d.factories a.token = []) :
    (∀ k : Nat, resolveAll k chain a caches fresh = .ok ([], caches, fresh)) ∧
    (∀ (stack : List Nat) (o : Bool) (k : Nat),
      resolveInternal (k + 1) chain a stack { multiple := true, optional := o } caches fresh
        = .ok (.list [], caches, fresh)) := by
  constructor
  · intro k
    rw [resolveAll]
    exact resolveMultiple_empty chain caches hlen hno [] k
  · intro stack o k
    rw [resolveInternal]
    rw [if_neg (by simp)]
    rw [tryResolveFromCurrentContainer]
    simp only [if_true]
    rw [resolveMultiple_empty chain caches hlen hno stack k]
    show afterLocalAttempt k chain a stack { multiple := true, optional := o } (.list [], caches, fresh) = _
    exact afterLocalAttempt_defined rfl

def c9C : Container :=
  { registrations := [], decorators := [], instanceRegistrations := [], factories := [],
    composites := [(3, { implName := "Comp", implId := 99, dependencies := [], scope := .Transient })] }

/-- Witness for C9 on a container that has only a composite record for the
token: both collection forms return the empty list without raising. -/
theorem c9_empty_collection_witness :
    resolveAll 5 [c9C] aW [[]] 0 = .ok ([], [[]], 0) ∧
    resolveInternal 5 [c9C] aW [] { multiple := true, optional := false } [[]] 0
      = .ok (.list [], [[]], 0) := by
  have hno : ∀ d ∈ ([c9C] : List Container),
      lookupD d.instanceRegistrations aW.token = [] ∧
      lookupD d.registrations aW.token = [] ∧ lookupD d.factories aW.token = [] := by
    intro d hd
    simp only [List.mem_singleton] at hd
    subst hd
    exact ⟨rfl, rfl, rfl⟩
  have h := @c9_empty_collection aW 0 [c9C] [[]] rfl hno
  exact ⟨h.1 5, h.2 [] false 4⟩

/-- The code's local resolution coincides with the spec's precedence
cascade for every single (non-multiple) request. -/
theorem tryResolve_eq_localSpec {fuel : Nat} {chain : List Container} {a : Abstraction}
    {stack : List Nat} {opts : DependencyOptions} {caches : Caches} {fresh : Nat}
    (hm : opts.multiple = false) :
    tryResolveFromCurrentContainer fuel chain a stack opts caches fresh
      = localPrecedenceSpec fuel chain a stack caches fresh := by
  rw [tryResolveFromCurrentContainer, localPrecedenceSpec]
  simp [hm]

/-- C2: single (non-multiple) local resolution follows the strict
precedence order of the spec - composite, else last instance (decorated),
else last provider (via the singleton/construction procedure), else last
factory (invoked, decorated) - and when every branch misses (the cascade
produces the undefined no-match result), resolution falls through to the
parent container. -/
theorem c2_local_precedence {fuel : Nat} {chain : List Container} {a : Abstraction}
    {stack : List Nat} {opts : DependencyOptions} {caches : Caches} {fresh : Nat}
    (hm : opts.multiple = false) :
    (tryResolveFromCurrentContainer fuel chain a stack opts caches fresh
      = localPrecedenceSpec fuel chain a stack caches fresh) ∧
    (∀ (c p : Container) (ps : List Container), chain = c :: p :: ps →
      a.token ∉ stack →
      localPrecedenceSpec fuel chain a stack caches fresh = .ok (.undef, caches, fresh) →
      resolveInternal (fuel + 1) chain a stack opts caches fresh
        = (match resolveInternal fuel (p :: ps) a stack opts caches.tail fresh with
           | .error e => .error e
           | .ok (v2, cs2, f2) => .ok (v2, caches.headD [] :: cs2, f2))) := by
  refine ⟨tryResolve_eq_localSpec hm, ?_⟩
  intro c p ps hch hstk hundef
  subst hch
  rw [resolveInternal]
  rw [if_neg (by simp [hstk])]
  rw [tryResolve_eq_localSpec hm, hundef]
  show afterLocalAttempt fuel (c :: p :: ps) a stack opts (.undef, caches, fresh) = _
  rw [afterLocalAttempt.eq_def]
  simp [Value.isUndef]

/-- Witness for C2: the cascade equation at a container holding a
singleton provider, and the fall-through step at an empty head container. -/
theorem c2_local_precedence_witness :
    (tryResolveFromCurrentContainer 2 [c1C] c1A [] {} [[]] 0
      = localPrecedenceSpec 2 [c1C] c1A [] [[]] 0) ∧
    (resolveInternal 3 [emptyContainer, emptyContainer] aW [] {} [[], []] 0
      = (match resolveInternal 2 [emptyContainer] aW [] {} ([[], []] : Caches).tail 0 with
         | .error e => .error e
         | .ok (v2, cs2, f2) => .ok (v2, ([[], []] : Caches).headD [] :: cs2, f2))) := by
  constructor
  · exact (@c2_local_precedence 2 [c1C] c1A [] {} [[]] 0 rfl).1
  · exact (@c2_local_precedence 2 [emptyContainer, emptyContainer] aW [] {} [[], []] 0 rfl).2
      emptyContainer emptyContainer [] rfl (by simp)
      (by rw [localPrecedenceSpec]; simp [lookupD, lookupAssoc, emptyContainer])

/-- Appending a decorator to the fold list post-composes one decoration
step onto the fold's result. -/
theorem applyDecoratorsLoop_append {fuel : Nat} {chain : List Container} {a : Abstraction}
    {stack : List Nat} (ds : List DecoratorRegistration) (d : DecoratorRegistration) :
    ∀ (res : Value) (caches : Caches) (fresh : Nat),
    applyDecoratorsLoop fuel chain a (ds ++ [d]) res stack caches fresh
      = (match applyDecoratorsLoop fuel chain a ds res stack caches fresh with
         | .error e => .error e
         | .ok (w, cs, f) => decorateOne fuel chain a d w stack cs f) := by
  induction ds with
  | nil =>
    intro res caches fresh
    simp only [List.nil_append]
    cases hd : decorateOne fuel chain a d res stack caches fresh with
    | error e => simp [applyDecoratorsLoop, hd]
    | ok r => obtain ⟨w, cs, f⟩ := r; simp [applyDecoratorsLoop, hd]
  | cons x rest ih =>
    intro res caches fresh
    simp only [List.cons_append]
    cases hd : decorateOne fuel chain a x res stack caches fresh with
    | error e => simp [applyDecoratorsLoop, hd]
    | ok r =>
      obtain ⟨w, cs, f⟩ := r
      conv_lhs => rw [applyDecoratorsLoop, hd]
      show applyDecoratorsLoop fuel chain a (rest ++ [d]) w stack cs f = _
      rw [ih w cs f]
      conv_rhs => rw [applyDecoratorsLoop, hd]

/-- C5: decorator application folds left-to-right over the producing
container's decorator list - an empty list returns the base instance
unchanged (whatever decorators ancestors may hold: only the head
container's list is read), and when the list ends in decorator d the
successful result is a construction of d whose last constructor argument
is the fold of the earlier decorators, i.e. the last-registered decorator
is the outermost wrapper. -/
theorem c5_decorator_fold {fuel : Nat} {chain : List Container} {a : Abstraction}
    {base : Value} {stack : List Nat} {caches : Caches} {fresh : Nat} :
    (lookupD (chain.headD emptyContainer).decorators a.token = [] →
      applyDecorators fuel chain a base stack caches fresh = .ok (base, caches, fresh)) ∧
    (∀ (ds : List DecoratorRegistration) (d : DecoratorRegistration),
      lookupD (chain.headD emptyContainer).decorators a.token = ds ++ [d] →
      ∀ {v : Value} {cs : Caches} {f : Nat},
      applyDecorators fuel chain a base stack caches fresh = .ok (v, cs, f) →
      ∃ w cs1 f1, applyDecoratorsLoop fuel chain a ds base stack caches fresh = .ok (w, cs1, f1) ∧
        ∃ vals i, v = Value.obj d.decId i (vals ++ [w])) := by
  constructor
  · intro hd
    rw [applyDecorators, hd, applyDecoratorsLoop]
  · intro ds d hd v cs f h
    rw [applyDecorators, hd] at h
    rw [applyDecoratorsLoop_append] at h
    split at h
    · simp at h
    · rename_i w cs1 f1 hw
      obtain ⟨vals, i, hv⟩ := decorateOne_ok h
      exact ⟨w, cs1, f1, hw, vals, i, hv⟩

def d1 : DecoratorRegistration := { decId := 21, dependencies := [] }

def d2 : DecoratorRegistration := { decId := 22, dependencies := [] }

def c5C : Container :=
  { registrations := [], decorators := [(3, [d1, d2])], instanceRegistrations := [],
    factories := [], composites := [] }

/-- Witness for C5 with two dependency-free decorators: the result is a
d2-object wrapping the d1-stage result as its last constructor argument. -/
theorem c5_decorator_fold_witness :
    ∃ w cs1 f1, applyDecoratorsLoop 1 [c5C] aW [d1] (.raw 0) [] [[]] 0 = .ok (w, cs1, f1) ∧
      ∃ vals i, Value.obj 22 1 [Value.obj 21 0 [Value.raw 0]] = Value.obj d2.decId i (vals ++ [w]) := by
  have heval : applyDecorators 1 [c5C] aW (.raw 0) [] [[]] 0
      = .ok (.obj 22 1 [.obj 21 0 [.raw 0]], [[]], 2) := by
    simp [applyDecorators, applyDecoratorsLoop, decorateOne, resolveDepsLoop,
      lookupD, lookupAssoc, c5C, aW, d1, d2]
  exact (@c5_decorator_fold 1 [c5C] aW (.raw 0) [] [[]] 0).2 [d1] d2 rfl heval

/-- C6: when a composite record exists in the resolving container, a
single (non-multiple) resolve returns a fresh construction of the
composite class itself - the container's decorator chain is not applied,
whatever decorators are registered - and resolveInternal passes that
result through unchanged. -/
theorem c6_composite_bypasses_decorators {fuel : Nat} {chain : List Container}
    {a : Abstraction} {stack : List Nat} {opts : DependencyOptions}
    {caches : Caches} {fresh : Nat} {comp : Registration}
    (hm : opts.multiple = false)
    (hcomp : lookupAssoc (chain.headD emptyContainer).composites a.token = some comp)
    (hstk : a.token ∉ stack) :
    ∀ {v : Value} {cs : Caches} {f : Nat},
    tryResolveFromCurrentContainer fuel chain a stack opts caches fresh = .ok (v, cs, f) →
    (∃ args i, v = Value.obj comp.implId i args) ∧
    resolveInternal (fuel + 1) chain a stack opts caches fresh = .ok (v, cs, f) := by
  intro v cs f h
  have hshape : ∃ args i, v = Value.obj comp.implId i args := by
    rw [tryResolveFromCurrentContainer] at h
    simp only [hm, Bool.false_eq_true, if_false, hcomp] at h
    split at h
    · simp at h
    · rename_i args cs1 f1 hdeps
      simp only [Except.ok.injEq, Prod.mk.injEq] at h
      exact ⟨args, f1, h.1.symm⟩
  refine ⟨hshape, ?_⟩
  rw [resolveInternal]
  rw [if_neg (by simp [hstk])]
  rw [h]
  show afterLocalAttempt fuel chain a stack opts (v, cs, f) = _
  obtain ⟨args, i, rfl⟩ := hshape
  exact afterLocalAttempt_defined rfl

def c6Comp : Registration :=
  { implName := "CompositeLogger", implId := 50, dependencies := [], scope := .Transient }

def c6C : Container :=
  { registrations := [], decorators := [(3, [d1])], instanceRegistrations := [],
    factories := [], composites := [(3, c6Comp)] }

/-- Witness for C6 on a container that also has a decorator registered for
the token: the composite construction comes back undecorated. -/
theorem c6_composite_bypasses_decorators_witness :
    (∃ args i, (Value.obj 50 0 ([] : List Value)) = Value.obj c6Comp.implId i args) ∧
    resolveInternal 2 [c6C] aW [] {} [[]] 0 = .ok (.obj 50 0 [], [[]], 1) := by
  have heval : tryResolveFromCurrentContainer 1 [c6C] aW [] {} [[]] 0
      = .ok (.obj 50 0 [], [[]], 1) := by
    rw [tryResolveFromCurrentContainer]
    simp [lookupD, lookupAssoc, c6C, aW, c6Comp, resolveDepsLoop]
  exact @c6_composite_bypasses_decorators 1 [c6C] aW [] {} [[]] 0 c6Comp rfl
    (by simp [c6C, aW, lookupAssoc, c6Comp]) (by simp) (.obj 50 0 []) [[]] 1 heval

/-- A local attempt that produced the undefined value at the root (no
parent) ends in the optional/absence rule or the no-registration error. -/
theorem resolveInternal_localUndef_root {n : Nat} {c : Container} {a : Abstraction}
    {stack : List Nat} {opts : DependencyOptions} {caches : Caches} {fresh : Nat}
    {cs0 : Caches} {f0 : Nat}
    (h : tryResolveFromCurrentContainer n [c] a stack opts caches fresh = .ok (.undef, cs0, f0))
    (hstk : a.token ∉ stack) :
    resolveInternal (n + 1) [c] a stack opts caches fresh
      = (if opts.optional then .ok (.undef, cs0, f0)
         else .error (.noRegistration ("No registration found for " ++ a.toStr))) := by
  rw [resolveInternal, if_neg (by simp [hstk]), h]
  show afterLocalAttempt n [c] a stack opts (.undef, cs0, f0) = _
  rw [afterLocalAttempt.eq_def]
  simp [Value.isUndef]

/-- A local attempt that produced the undefined value with a parent
present delegates to the parent chain. -/
theorem resolveInternal_localUndef_parent {n : Nat} {c p : Container} {ps : List Container}
    {a : Abstraction} {stack : List Nat} {opts : DependencyOptions} {caches : Caches}
    {fresh : Nat} {cs0 : Caches} {f0 : Nat}
    (h : tryResolveFromCurrentContainer n (c :: p :: ps) a stack opts caches fresh
      = .ok (.undef, cs0, f0))
    (hstk : a.token ∉ stack) :
    resolveInternal (n + 1) (c :: p :: ps) a stack opts caches fresh
      = (match resolveInternal n (p :: ps) a stack opts cs0.tail f0 with
         | .error e => .error e
         | .ok (v2, cs2, f2) => .ok (v2, cs0.headD [] :: cs2, f2)) := by
  rw [resolveInternal, if_neg (by simp [hstk]), h]
  show afterLocalAttempt n (c :: p :: ps) a stack opts (.undef, cs0, f0) = _
  rw [afterLocalAttempt.eq_def]
  simp [Value.isUndef]

/-- An instance record whose stored value is undefined, with no decorators
registered, makes the local attempt return undefined with no state change. -/
theorem tryResolve_lastInstanceUndef {fuel : Nat} {c : Container} {rest : List Container}
    {a : Abstraction} {stack : List Nat} {opts : DependencyOptions}
    {caches : Caches} {fresh : Nat}
    (hcomp : lookupAssoc c.composites a.token = none)
    (hdec : lookupD c.decorators a.token = [])
    (hinst : (lookupD c.instanceRegistrations a.token).getLast? = some .undef)
    (hm : opts.multiple = false) :
    tryResolveFromCurrentContainer fuel (c :: rest) a stack opts caches fresh
      = .ok (.undef, caches, fresh) := by
  rw [tryResolveFromCurrentContainer]
  simp [hm, hcomp, hinst]
  rw [applyDecorators]
  simp only [List.headD_cons, hdec]
  rw [applyDecoratorsLoop]

/-- A most-recently-registered factory returning undefined, with no
decorators registered, makes the local attempt return undefined (keeping
the factory's allocation effect). -/
theorem tryResolve_lastFactoryUndef {fuel : Nat} {c : Container} {rest : List Container}
    {a : Abstraction} {stack : List Nat} {opts : DependencyOptions}
    {caches : Caches} {fresh : Nat} {fac : Factory} {f0 : Nat}
    (hcomp : lookupAssoc c.composites a.token = none)
    (hdec : lookupD c.decorators a.token = [])
    (hinst : lookupD c.instanceRegistrations a.token = [])
    (hreg : lookupD c.registrations a.token = [])
    (hfac : (lookupD c.factories a.token).getLast? = some fac)
    (hfr : fac fresh = (.undef, f0))
    (hm : opts.multiple = false) :
    tryResolveFromCurrentContainer fuel (c :: rest) a stack opts caches fresh
      = .ok (.undef, caches, f0) := by
  rw [tryResolveFromCurrentContainer]
  simp [hm, hcomp, hinst, hreg, hfac, hfr]
  rw [applyDecorators]
  simp only [List.headD_cons, hdec]
  rw [applyDecoratorsLoop]

/-- C10: when the winning local registration of a single resolution
produces the undefined value - an instance record storing undefined, or
the most-recently-registered factory returning undefined, with no
decorators registered - the container treats it as no local match: it
falls through to the parent, and at the root raises the no-registration
error (or returns the absence value when optional) instead of returning
undefined as a result. -/
theorem c10_undefined_result_falls_through {n : Nat} {c : Container} {rest : List Container}
    {a : Abstraction} {stack : List Nat} {opts : DependencyOptions}
    {caches : Caches} {fresh : Nat}
    (hcomp : lookupAssoc c.composites a.token = none)
    (hdec : lookupD c.decorators a.token = [])
    (hm : opts.multiple = false) (hstk : a.token ∉ stack) :
    ((lookupD c.instanceRegistrations a.token).getLast? = some .undef →
      (rest = [] → resolveInternal (n + 1) (c :: rest) a stack opts caches fresh
        = (if opts.optional then .ok (.undef, caches, fresh)
           else .error (.noRegistration ("No registration found for " ++ a.toStr)))) ∧
      (∀ (p : Container) (ps : List Container), rest = p :: ps →
        resolveInternal (n + 1) (c :: rest) a stack opts caches fresh
        = (match resolveInternal n (p :: ps) a stack opts caches.tail fresh with
           | .error e => .error e
           | .ok (v2, cs2, f2) => .ok (v2, caches.headD [] :: cs2, f2)))) ∧
    (∀ (fac : Factory) (f0 : Nat),
      lookupD c.instanceRegistrations a.token = [] →
      lookupD c.registrations a.token = [] →
      (lookupD c.factories a.token).getLast? = some fac →
      fac fresh = (.undef, f0) →
      (rest = [] → resolveInternal (n + 1) (c :: rest) a stack opts caches fresh
        = (if opts.optional then .ok (.undef, caches, f0)
           else .error (.noRegistration ("No registration found for " ++ a.toStr)))) ∧
      (∀ (p : Container) (ps : List Container), rest = p :: ps →
        resolveInternal (n + 1) (c :: rest) a stack opts caches fresh
        = (match resolveInternal n (p :: ps) a stack opts caches.tail f0 with
           | .error e => .error e
           | .ok (v2, cs2, f2) => .ok (v2, caches.headD [] :: cs2, f2)))) := by
  constructor
  · intro hinst
    constructor
    · intro hrest
      subst hrest
      exact resolveInternal_localUndef_root
        (tryResolve_lastInstanceUndef hcomp hdec hinst hm) hstk
    · intro p ps hrest
      subst hrest
      exact resolveInternal_localUndef_parent
        (tryResolve_lastInstanceUndef hcomp hdec hinst hm) hstk
  · intro fac f0 hinst hreg hfac hfr
    constructor
    · intro hrest
      subst hrest
      exact resolveInternal_localUndef_root
        (tryResolve_lastFactoryUndef hcomp hdec hinst hreg hfac hfr hm) hstk
    · intro p ps hrest
      subst hrest
      exact resolveInternal_localUndef_parent
        (tryResolve_lastFactoryUndef hcomp hdec hinst hreg hfac hfr hm) hstk

def c10C : Container :=
  { registrations := [], decorators := [], instanceRegistrations := [(3, [.undef])],
    factories := [], composites := [] }

/-- Witness for C10: a root container whose only record for the token is
an instance registration storing undefined raises the no-registration
error on plain resolve and yields the absence value when optional. -/
theorem c10_undefined_result_falls_through_witness :
    resolveInternal 1 [c10C] aW [] {} [[]] 0
      = .error (.noRegistration "No registration found for Svc") ∧
    resolveInternal 1 [c10C] aW [] { optional := true } [[]] 0
      = .ok (.undef, [[]], 0) := by
  constructor
  · have h := ((@c10_undefined_result_falls_through 0 c10C [] aW [] {} [[]] 0
      rfl rfl rfl (by simp)).1 rfl).1 rfl
    simpa [aW, Abstraction.toStr] using h
  · have h := ((@c10_undefined_result_falls_through 0 c10C [] aW [] { optional := true } [[]] 0
      rfl rfl rfl (by simp)).1 rfl).1 rfl
    simpa using h

/-- Number of provider, instance and factory records a container holds for
a token (composites and decorators not included). -/
def countLocal (c : Container) (tok : Nat) : Nat :=
  (lookupD c.instanceRegistrations tok).length + (lookupD c.registrations tok).length +
    (lookupD c.factories tok).length

/-- Total count of provider, instance and factory records for a token over
a whole ancestor chain. -/
def countChain (chain : List Container) (tok : Nat) : Nat :=
  (chain.map (fun c => countLocal c tok)).sum

/-- The instance loop of resolveMultiple appends exactly one decorated
value per instance record, in order. -/
theorem multInstLoop_spec {fuel : Nat} {chain : List Container} {a : Abstraction}
    {stack : List Nat} :
    ∀ (ls : List Value) {caches : Caches} {fresh : Nat} {out : List Value}
      {cs : Caches} {f : Nat},
    multInstLoop fuel chain a ls stack caches fresh = .ok (out, cs, f) →
    out.length = ls.length ∧
    List.Forall₂ (fun v w => ∃ cs1 f1 cs2 f2,
      applyDecorators fuel chain a v stack cs1 f1 = .ok (w, cs2, f2)) ls out := by
  intro ls
  induction ls with
  | nil =>
    intro caches fresh out cs f h
    rw [multInstLoop] at h
    simp only [Except.ok.injEq, Prod.mk.injEq] at h
    obtain ⟨h1, -, -⟩ := h
    rw [← h1]
    exact ⟨rfl, List.Forall₂.nil⟩
  | cons v lrest ih =>
    intro caches fresh out cs f h
    rw [multInstLoop] at h
    split at h
    · simp at h
    · rename_i w cs1 f1 hap
      split at h
      · simp at h
      · rename_i ws cs2 f2 hrec
        simp only [Except.ok.injEq, Prod.mk.injEq] at h
        obtain ⟨hout, -, -⟩ := h
        obtain ⟨hlen, hfa⟩ := ih hrec
        rw [← hout]
        exact ⟨by simp [hlen], List.Forall₂.cons ⟨caches, fresh, cs1, f1, hap⟩ hfa⟩

/-- The provider loop of resolveMultiple appends exactly one resolved
value per provider record, in order, each via resolveRegistration. -/
theorem multRegLoop_spec {fuel : Nat} {chain : List Container} {a : Abstraction}
    {stack : List Nat} :
    ∀ (regs : List Registration) {caches : Caches} {fresh : Nat} {out : List Value}
      {cs : Caches} {f : Nat},
    multRegLoop fuel chain a regs stack caches fresh = .ok (out, cs, f) →
    out.length = regs.length ∧
    List.Forall₂ (fun r w => ∃ cs1 f1 cs2 f2,
      resolveRegistration fuel chain a r stack cs1 f1 = .ok (w, cs2, f2)) regs out := by
  intro regs
  induction regs with
  | nil =>
    intro caches fresh out cs f h
    rw [multRegLoop] at h
    simp only [Except.ok.injEq, Prod.mk.injEq] at h
    obtain ⟨h1, -, -⟩ := h
    rw [← h1]
    exact ⟨rfl, List.Forall₂.nil⟩
  | cons r lrest ih =>
    intro caches fresh out cs f h
    rw [multRegLoop] at h
    split at h
    · simp at h
    · rename_i w cs1 f1 hap
      split at h
      · simp at h
      · rename_i ws cs2 f2 hrec
        simp only [Except.ok.injEq, Prod.mk.injEq] at h
        obtain ⟨hout, -, -⟩ := h
        obtain ⟨hlen, hfa⟩ := ih hrec
        rw [← hout]
        exact ⟨by simp [hlen], List.Forall₂.cons ⟨caches, fresh, cs1, f1, hap⟩ hfa⟩

/-- The factory loop of resolveMultiple appends exactly one invoked and
decorated value per factory record, in order. -/
theorem multFactLoop_spec {fuel : Nat} {chain : List Container} {a : Abstraction}
    {stack : List Nat} :
    ∀ (facs : List Factory) {caches : Caches} {fresh : Nat} {out : List Value}
      {cs : Caches} {f : Nat},
    multFactLoop fuel chain a facs stack caches fresh = .ok (out, cs, f) →
    out.length = facs.length ∧
    List.Forall₂ (fun fac w => ∃ f0 cs1 cs2 f2,
      applyDecorators fuel chain a (fac f0).1 stack cs1 (fac f0).2 = .ok (w, cs2, f2)) facs out := by
  intro facs
  induction facs with
  | nil =>
    intro caches fresh out cs f h
    rw [multFactLoop] at h
    simp only [Except.ok.injEq, Prod.mk.injEq] at h
    obtain ⟨h1, -, -⟩ := h
    rw [← h1]
    exact ⟨rfl, List.Forall₂.nil⟩
  | cons fac lrest ih =>
    intro caches fresh out cs f h
    rw [multFactLoop] at h
    split at h
    · simp at h
    · rename_i w cs1 f1 hap
      split at h
      · simp at h
      · rename_i ws cs2 f2 hrec
        simp only [Except.ok.injEq, Prod.mk.injEq] at h
        obtain ⟨hout, -, -⟩ := h
        obtain ⟨hlen, hfa⟩ := ih hrec
        rw [← hout]
        exact ⟨by simp [hlen], List.Forall₂.cons ⟨fresh, caches, cs1, f1, hap⟩ hfa⟩

/-- A successful multiple-collection has exactly one element per provider,
instance and factory record over the whole ancestor chain. -/
theorem resolveMultiple_length {fuel : Nat} {a : Abstraction} {stack : List Nat} :
    ∀ (chain : List Container) {caches : Caches} {fresh : Nat}
      {out : List Value} {cs : Caches} {f : Nat},
    resolveMultiple fuel chain a stack caches fresh = .ok (out, cs, f) →
    out.length = countChain chain a.token := by
  intro chain
  induction chain with
  | nil =>
    intro caches fresh out cs f h
    rw [resolveMultiple] at h
    simp only [Except.ok.injEq, Prod.mk.injEq] at h
    obtain ⟨h1, -, -⟩ := h
    rw [← h1]
    simp [countChain]
  | cons c rest ih =>
    intro caches fresh out cs f h
    rw [resolveMultiple] at h
    split at h
    · simp at h
    · rename_i vs0 cs0 f0 hpar
      split at h
      · simp at h
      · rename_i ivs cs1 f1 hinst
        split at h
        · simp at h
        · rename_i rvs cs2 f2 hreg
          split at h
          · simp at h
          · rename_i fvs cs3 f3 hfact
            simp only [Except.ok.injEq, Prod.mk.injEq] at h
            obtain ⟨hout, -, -⟩ := h
            have hp : vs0.length = countChain rest a.token := by
              cases rest with
              | nil =>
                rw [resolveMultipleParent] at hpar
                simp only [Except.ok.injEq, Prod.mk.injEq] at hpar
                rw [← hpar.1]
                simp [countChain]
              | cons p ps =>
                rw [resolveMultipleParent] at hpar
                split at hpar
                · simp at hpar
                · rename_i vs cs4 f4 hmul
                  simp only [Except.ok.injEq, Prod.mk.injEq] at hpar
                  rw [← hpar.1]
                  exact ih hmul
            have hi := (multInstLoop_spec _ hinst).1
            have hr := (multRegLoop_spec _ hreg).1
            have hf := (multFactLoop_spec _ hfact).1
            rw [← hout]
            simp only [List.length_append, countChain, List.map_cons, List.sum_cons,
              countLocal, hp, hi, hr, hf]
            simp only [countChain] at hp
            omega

/-- C4: a successful multiple-collection is the parent chain's full result
first, then this container's instance records decorated in registration
order, then its provider records resolved via resolveRegistration in
order, then its factory records invoked and decorated in order; composite
records contribute nothing, and the total length equals the count of
provider, instance and factory records over the whole ancestor chain. -/
theorem c4_multiple_collection {fuel : Nat} {c : Container} {rest : List Container}
    {a : Abstraction} {stack : List Nat} {caches : Caches} {fresh : Nat}
    {out : List Value} {cs : Caches} {f : Nat}
    (h : resolveMultiple fuel (c :: rest) a stack caches fresh = .ok (out, cs, f)) :
    out.length = countChain (c :: rest) a.token ∧
    ∃ pvs ivs rvs fvs,
      out = pvs ++ ivs ++ rvs ++ fvs ∧
      (rest = [] → pvs = []) ∧
      (∀ (p : Container) (ps : List Container), rest = p :: ps → ∃ cs0 f0,
        resolveMultiple fuel (p :: ps) a stack caches.tail fresh = .ok (pvs, cs0, f0)) ∧
      List.Forall₂ (fun v w => ∃ cs1 f1 cs2 f2,
        applyDecorators fuel (c :: rest) a v stack cs1 f1 = .ok (w, cs2, f2))
        (lookupD c.instanceRegistrations a.token) ivs ∧
      List.Forall₂ (fun r w => ∃ cs1 f1 cs2 f2,
        resolveRegistration fuel (c :: rest) a r stack cs1 f1 = .ok (w, cs2, f2))
        (lookupD c.registrations a.token) rvs ∧
      List.Forall₂ (fun fac w => ∃ f0 cs1 cs2 f2,
        applyDecorators fuel (c :: rest) a (fac f0).1 stack cs1 (fac f0).2 = .ok (w, cs2, f2))
        (lookupD c.factories a.token) fvs := by
  refine ⟨resolveMultiple_length _ h, ?_⟩
  rw [resolveMultiple] at h
  split at h
  · simp at h
  · rename_i vs0 cs0 f0 hpar
    split at h
    · simp at h
    · rename_i ivs cs1 f1 hinst
      split at h
      · simp at h
      · rename_i rvs cs2 f2 hreg
        split at h
        · simp at h
        · rename_i fvs cs3 f3 hfact
          simp only [Except.ok.injEq, Prod.mk.injEq] at h
          obtain ⟨hout, -, -⟩ := h
          refine ⟨vs0, ivs, rvs, fvs, hout.symm, ?_, ?_,
            (multInstLoop_spec _ hinst).2, (multRegLoop_spec _ hreg).2,
            (multFactLoop_spec _ hfact).2⟩
          · intro hrest
            subst hrest
            rw [resolveMultipleParent] at hpar
            simp only [Except.ok.injEq, Prod.mk.injEq] at hpar
            exact hpar.1.symm
          · intro p ps hrest
            subst hrest
            rw [resolveMultipleParent] at hpar
            split at hpar
            · simp at hpar
            · rename_i vs cs4 f4 hmul
              simp only [Except.ok.injEq, Prod.mk.injEq] at hpar
              obtain ⟨hvs, -, -⟩ := hpar
              exact ⟨cs4, f4, by rw [hvs] at hmul; exact hmul⟩

def c4Fac : Factory := fun f => (.raw 2, f)

def c4Reg : Registration :=
  { implName := "P", implId := 70, dependencies := [], scope := .Transient }

def c4P : Container :=
  { registrations := [(3, [c4Reg])],
    decorators := [], instanceRegistrations := [], factories := [], composites := [] }

def c4K : Container :=
  { registrations := [], decorators := [], instanceRegistrations := [(3, [.raw 1])],
    factories := [(3, [c4Fac])], composites := [] }

/-- Witness for C4: a child with one instance and one factory record under
a parent with one provider record collects three elements - parent result
first - matching the chain-wide record count. -/
theorem c4_multiple_collection_witness :
    ([Value.obj 70 0 [], Value.raw 1, Value.raw 2] : List Value).length
      = countChain [c4K, c4P] aW.token ∧
    ∃ pvs ivs rvs fvs,
      ([Value.obj 70 0 [], Value.raw 1, Value.raw 2] : List Value) = pvs ++ ivs ++ rvs ++ fvs := by
  have heval : resolveMultiple 2 [c4K, c4P] aW [] [[], []] 0
      = .ok ([.obj 70 0 [], .raw 1, .raw 2], [[], []], 1) := by
    rw [resolveMultiple]
    simp [resolveMultipleParent, resolveMultiple, multInstLoop, multRegLoop, multFactLoop,
      resolveRegistration, resolveDepsLoop, applyDecorators, applyDecoratorsLoop,
      cacheHit, getStr, lookupD, lookupAssoc, c4K, c4P, c4Reg, c4Fac, aW, instanceKey,
      Abstraction.symStr]
  have main := c4_multiple_collection heval
  obtain ⟨hlen, pvs, ivs, rvs, fvs, hdecomp, -⟩ := main
  exact ⟨hlen, pvs, ivs, rvs, fvs, hdecomp⟩

def c3X1 : Abstraction := { token := 0, label := "Logger" }

def c3X2 : Abstraction := { token := 1, label := "Logger" }

def c3RegA : Registration :=
  { implName := "Impl", implId := 100, dependencies := [], scope := .Singleton }

def c3RegB : Registration :=
  { implName := "Impl", implId := 200, dependencies := [], scope := .Singleton }

def c3C : Container :=
  { registrations := [(0, [c3RegA]), (1, [c3RegB])], decorators := [],
    instanceRegistrations := [], factories := [], composites := [] }

/-- C3, evaluated at the failing input: the singleton cache key is built
from token.toString() - the string Symbol(label) - and the provider class
name, so two DISTINCT contracts (tokens 0 and 1) with the equal label
Logger and equally named provider classes share the cache entry: resolving
the first contract constructs and caches the class-100 instance, and
resolving the second contract then returns that very class-100 instance
(identical allocation id 0) instead of constructing its own class-200
provider. This contradicts the claim (and the spec's keying by
contract.identity): distinct identity tokens do share a cache entry. -/
theorem c3_singleton_cache_key_collision :
    resolve 2 [c3C] c3X1 [[]] 0
      = .ok (.obj 100 0 [], [[("Symbol(Logger)::Impl", .obj 100 0 [])]], 1) ∧
    resolve 2 [c3C] c3X2 [[("Symbol(Logger)::Impl", .obj 100 0 [])]] 1
      = .ok (.obj 100 0 [], [[("Symbol(Logger)::Impl", .obj 100 0 [])]], 1) := by
  constructor <;>
    simp [resolve, resolveInternal, afterLocalAttempt, tryResolveFromCurrentContainer,
      resolveRegistration, resolveDepsLoop, applyDecorators, applyDecoratorsLoop, decorateOne,
      lookupD, lookupAssoc, cacheHit, getStr, setStr, updHead, instanceKey, Abstraction.symStr,
      Value.isUndef, Value.truthy, c3C, c3X1, c3X2, c3RegA, c3RegB]

end DI
